import Mathlib

/-
Verification of the svgSlicer toolpath-generation core.

The numeric domain of the source (JS doubles) is embedded as exact
rationals; `Math.PI` and `Math.sqrt` are threaded as explicit parameters
(`pi`, `sqrtQ`) where a definition uses them, and the extrusion formula is
additionally stated over the reals with `Real.pi` for the numeric claim
about the true constant.  Emitted G-code lines are modelled structurally:
one constructor per kind of line the generator appends, carrying the exact
numeric payloads that the source would format with `toFixed`.
-/

namespace SvgSlicer

/-- A 2D point (source: `types.ts`, interface `Point`). -/
structure Point where
  x : ℚ
  y : ℚ
deriving DecidableEq, Repr

/-- An ordered pair of points (source: `types.ts`, interface `Segment`). -/
structure Segment where
  p1 : Point
  p2 : Point
deriving DecidableEq, Repr

/-- The closed-loop pairing `(p[i], p[(i+1) % n])` for `i = 0 .. n-1`,
transcribing the loops of the source that walk `points[i]` to
`points[(i + 1) % points.length]`.  `zip` with `rotate 1` produces exactly
these index pairs (see `loopPairs_getD` below). -/
def loopPairs {α : Type} (ps : List α) : List (α × α) := ps.zip (ps.rotate 1)

/-- Body of `extractSegments` inside `shapeToSegments`
(source: `src/utils/geometryHelper.ts`): one segment per consecutive
vertex pair, wrapping the last point back to the first. -/
def extractSegments (points : List Point) : List Segment :=
  (loopPairs points).map fun pq => ⟨pq.1, pq.2⟩

/-- A parsed vector shape: an outer loop of points plus hole loops
(the shape of the data `THREE.Shape` delivers to `shapeToSegments`:
`shape.getPoints()` and `shape.holes[i].getPoints()`). -/
structure Shape where
  points : List Point
  holes : List (List Point)

/-- Source: `shapeToSegments` in `src/utils/geometryHelper.ts`: the outer
loop is converted first, then each hole loop in order. -/
def shapeToSegments (shape : Shape) : List Segment :=
  extractSegments shape.points ++ shape.holes.flatMap extractSegments

/-- The scanline guard of `getScanlineIntersections`
(source: `src/utils/geometryHelper.ts` lines 36-42):
`y > minY && y <= maxY` with `minY`/`maxY` the segment Y-range. -/
def scanGuard (y : ℚ) (seg : Segment) : Bool :=
  decide (min seg.p1.y seg.p2.y < y) && decide (y ≤ max seg.p1.y seg.p2.y)

/-- The interpolation parameter `t = (y - y1) / (y2 - y1)` of
`getScanlineIntersections`. -/
def interpT (y : ℚ) (seg : Segment) : ℚ :=
  (y - seg.p1.y) / (seg.p2.y - seg.p1.y)

/-- The interpolated crossing `x = x1 + t * (x2 - x1)` of
`getScanlineIntersections`. -/
def interpX (y : ℚ) (seg : Segment) : ℚ :=
  seg.p1.x + interpT y seg * (seg.p2.x - seg.p1.x)

/-- Source: `getScanlineIntersections` in `src/utils/geometryHelper.ts`:
collect the crossing of every segment that passes the guard, then sort
ascending (`intersections.sort((a, b) => a - b)`). -/
def getScanlineIntersections (y : ℚ) (segments : List Segment) : List ℚ :=
  List.insertionSort (· ≤ ·) ((segments.filter (scanGuard y)).map (interpX y))

/-- Spec-side rendering of the scanline contract, written from the words of
the spec: keep exactly the segments whose Y-range satisfies the half-open
rule `minY < Y ≤ maxY` and return
`x = x1 + (Y - y1) * (x2 - x1) / (y2 - y1)` for each. -/
def specScanlineIntersections (y : ℚ) (segments : List Segment) : List ℚ :=
  (segments.filter fun seg =>
      decide (min seg.p1.y seg.p2.y < y ∧ y ≤ max seg.p1.y seg.p2.y)).map
    fun seg => seg.p1.x + (y - seg.p1.y) * (seg.p2.x - seg.p1.x) / (seg.p2.y - seg.p1.y)

/-- The caller-side pairing loop over sorted intersections
(source: `src/services/gcodeService.ts`, the infill loop
`for (let k = 0; k < intersections.length - 1; k += 2)` that reads
`intersections[k]` and `intersections[k+1]`): consecutive pairs, any odd
leftover entry dropped. -/
def pairSpans : List ℚ → List (ℚ × ℚ)
  | [] => []
  | [_] => []
  | a :: b :: rest => (a, b) :: pairSpans rest

/-- Source: `calculateExtrusion` in `src/utils/geometryHelper.ts`, with
`Math.PI` threaded as the explicit parameter `pi`. -/
def calculateExtrusion (pi length layerHeight nozzleDiameter filamentDiameter : ℚ) : ℚ :=
  let filamentRadius := filamentDiameter / 2
  let volume := length * layerHeight * nozzleDiameter
  let filamentArea := pi * filamentRadius ^ 2
  volume / filamentArea

/-- `calculateExtrusion` stated over the reals with the genuine constant
`Real.pi` in place of `Math.PI`, for the numeric approximation claim. -/
noncomputable def calculateExtrusionR (length layerHeight nozzleDiameter filamentDiameter : ℝ) : ℝ :=
  let filamentRadius := filamentDiameter / 2
  let volume := length * layerHeight * nozzleDiameter
  let filamentArea := Real.pi * filamentRadius ^ 2
  volume / filamentArea

/-- Least Y coordinate of a vertex list (for the even-crossings claim;
the source folds `min` starting from `Infinity`, which agrees with this on
the nonempty lists it is used on). -/
def polyMinY : List Point → ℚ
  | [] => 0
  | p :: ps => ps.foldl (fun m q => min m q.y) p.y

/-- Greatest Y coordinate of a vertex list. -/
def polyMaxY : List Point → ℚ
  | [] => 0
  | p :: ps => ps.foldl (fun m q => max m q.y) p.y

/-- Machine parameters (source: `types.ts`, interface `PrinterSettings`,
plus the `zHop` field used by `src/services/gcodeService.ts`). -/
structure PrinterSettings where
  nozzleDiameter : ℚ
  filamentDiameter : ℚ
  layerHeight : ℚ
  initialLayerHeight : ℚ
  printSpeed : ℚ
  travelSpeed : ℚ
  temperature : ℚ
  bedTemperature : ℚ
  retractionDistance : ℚ
  retractionSpeed : ℚ
  extrusionMultiplier : ℚ
  zOffset : ℚ
  bedWidth : ℚ
  bedDepth : ℚ
  zHop : ℚ

/-- Per-job parameters (source: `types.ts`, interface `ModelSettings`,
plus the `isPlotterMode` flag used by `src/services/gcodeService.ts`). -/
structure ModelSettings where
  targetHeight : ℚ
  scale : ℚ
  fillDensity : ℚ
  generateInfill : Bool
  isPlotterMode : Bool

/-- Source: the helper `transformToBed` inside `generateGCode`
(`src/services/gcodeService.ts` lines 27-41): center, scale, and flip Y
into bed space. -/
def transformToBed (printer : PrinterSettings) (model : ModelSettings)
    (x y srcWidth srcHeight : ℚ) : Point :=
  let bedCenterX := printer.bedWidth / 2
  let bedCenterY := printer.bedDepth / 2
  let scale := model.scale
  let cx := srcWidth / 2
  let cy := srcHeight / 2
  let dx := (x - cx) * scale
  let dy := (y - cy) * scale
  ⟨bedCenterX + dx, bedCenterY - dy⟩

/-- Spec-side inverse of the bed transform, written from the words of the
round-trip property: undo the centering, undo the scale, and undo the
Y-flip. -/
def specBedInverse (printer : PrinterSettings) (model : ModelSettings)
    (p : Point) (srcWidth srcHeight : ℚ) : Point :=
  ⟨srcWidth / 2 + (p.x - printer.bedWidth / 2) / model.scale,
   srcHeight / 2 - (p.y - printer.bedDepth / 2) / model.scale⟩

/-- Source: the helper `transformPoint` inside `generateSVGStandardGCode`
(`src/services/gcodeService.ts` lines 252-261): normalize by the SVG
bounds, then center, scale, and flip exactly as `transformToBed`. -/
def transformPoint (printer : PrinterSettings) (model : ModelSettings)
    (minX minY maxX maxY : ℚ) (p : Point) : Point :=
  let svgWidth := maxX - minX
  let svgHeight := maxY - minY
  let nx := p.x - minX
  let ny := p.y - minY
  let scale := model.scale
  let cx := svgWidth / 2
  let cy := svgHeight / 2
  let dx := (nx - cx) * scale
  let dy := (ny - cy) * scale
  ⟨printer.bedWidth / 2 + dx, printer.bedDepth / 2 - dy⟩

/-- One emitted G-code line, modelled structurally
(source: the string appends of `src/services/gcodeService.ts`).  Each
constructor corresponds to one kind of appended line and carries the exact
numeric payloads the source would format with `toFixed`; comment lines
carry the interpolated numbers. -/
inductive GLine where
  /-- Header comment naming the mode (`; Generated by ...`). -/
  | hdrComment (plotter : Bool)
  /-- Header comment of the SVG-standard generator. -/
  | svgHdrComment
  /-- Settings comment line. -/
  | settingsComment
  /-- Settings comment line of the SVG-standard generator. -/
  | svgSettingsComment
  /-- The caller-supplied raw start G-code block, inserted verbatim. -/
  | userHeader (s : String)
  /-- Comment noting that temperatures are disabled in plotter mode. -/
  | plotterNote
  /-- `M104 S<t>` set nozzle temperature. -/
  | m104 (t : ℚ)
  /-- `M140 S<t>` set bed temperature. -/
  | m140 (t : ℚ)
  /-- `M109 S<t>` wait for nozzle temperature. -/
  | m109 (t : ℚ)
  /-- `M190 S<t>` wait for bed temperature. -/
  | m190 (t : ℚ)
  /-- `G90` absolute positioning. -/
  | g90
  /-- `G21` millimetre units. -/
  | g21
  /-- `G28` home. -/
  | g28
  /-- `G91` relative positioning. -/
  | g91
  /-- `M84` disable motors. -/
  | m84
  /-- `; Layer <n>` comment of the generic generator. -/
  | layerComment (n : ℕ)
  /-- `; --- Layer <n> (Z=..) ---` comment of the SVG-standard generator. -/
  | layerCommentZ (n : ℕ) (z : ℚ)
  /-- `; End` comment. -/
  | endComment
  /-- `G0 Z<z> F<f>`. -/
  | g0z (z f : ℚ)
  /-- `G0 X<x> Y<y> F<f>`. -/
  | g0xy (x y f : ℚ)
  /-- `G1 Z<z> F<f>`. -/
  | g1z (z f : ℚ)
  /-- `G1 X<x> Y<y> F<f>`. -/
  | g1xy (x y f : ℚ)
  /-- `G1 X<x> Y<y> E<e> F<f>` extruding move. -/
  | g1xyE (x y e f : ℚ)
  /-- `G0 Z<z>` without a feed rate (end block of the generic generator). -/
  | g0zNoF (z : ℚ)
  /-- `G0 X<x> Y<y>` without a feed rate (end block, generic generator). -/
  | g0xyNoF (x y : ℚ)
  /-- `G1 Z<z>` without a feed rate (end block, SVG-standard generator). -/
  | g1zNoF (z : ℚ)
  /-- `G1 X<x> Y<y>` without a feed rate (end block, SVG-standard). -/
  | g1xyNoF (x y : ℚ)
deriving DecidableEq, Repr

/-- The `E` parameter carried by a line, if any. -/
def lineE : GLine → Option ℚ
  | .g1xyE _ _ e _ => some e
  | _ => none

/-- The sequence of `E` values emitted across a stream, in order. -/
def streamEs (ls : List GLine) : List ℚ := ls.filterMap lineE

/-- Whether a line is a motion instruction (a `G0`/`G1` with axis words). -/
def isMotion : GLine → Bool
  | .g0z _ _ | .g0xy _ _ _ | .g1z _ _ | .g1xy _ _ _ | .g1xyE _ _ _ _
  | .g0zNoF _ | .g0xyNoF _ _ | .g1zNoF _ | .g1xyNoF _ _ => true
  | _ => false

/-- Sequential emission with a running state (the source threads the
accumulated string and `currentE` through its `for` loops; the string
becomes the returned line list, `currentE` the returned rational). -/
def emitFold {α : Type} (f : ℚ → α → List GLine × ℚ) : ℚ → List α → List GLine × ℚ
  | e, [] => ([], e)
  | e, a :: as =>
    let r := f e a
    let rest := emitFold f r.2 as
    (r.1 ++ rest.1, rest.2)

/-- Body of the per-segment loop of the generic generator
(source: `src/services/gcodeService.ts` lines 190-213): in plotter mode
the four-line travel / pen-down / draw / pen-up cycle; in standard mode a
travel plus an extruding draw accumulating `currentE`.  `sqrtQ` stands for
`Math.sqrt`. -/
def segmentLoopBody (sqrtQ : ℚ → ℚ) (pi : ℚ) (printer : PrinterSettings)
    (model : ModelSettings) (z zLift : ℚ) (currentE : ℚ) (seg : Segment) :
    List GLine × ℚ :=
  if model.isPlotterMode then
    ([.g0xy seg.p1.x seg.p1.y printer.travelSpeed,
      .g1z z printer.travelSpeed,
      .g1xy seg.p2.x seg.p2.y printer.printSpeed,
      .g0z zLift printer.travelSpeed], currentE)
  else
    let dist := sqrtQ ((seg.p2.x - seg.p1.x) ^ 2 + (seg.p2.y - seg.p1.y) ^ 2)
    let extrude := calculateExtrusion pi dist printer.layerHeight printer.nozzleDiameter
      printer.filamentDiameter
    let newE := currentE + extrude * printer.extrusionMultiplier
    ([.g0xy seg.p1.x seg.p1.y printer.travelSpeed,
      .g1xyE seg.p2.x seg.p2.y newE printer.printSpeed], newE)

/-- Body of the per-layer loop of the generic generator
(source: `src/services/gcodeService.ts` lines 175-214). -/
def layerLoopBody (sqrtQ : ℚ → ℚ) (pi : ℚ) (printer : PrinterSettings)
    (model : ModelSettings) (segmentsToPrint : List Segment) (currentE : ℚ)
    (layer : ℕ) : List GLine × ℚ :=
  let z := printer.initialLayerHeight + layer * printer.layerHeight + printer.zOffset
  let zLift := z + printer.zHop
  let hdr := if model.isPlotterMode then GLine.g0z zLift printer.travelSpeed
             else GLine.g1z z printer.travelSpeed
  let segs := emitFold (segmentLoopBody sqrtQ pi printer model z zLift) currentE segmentsToPrint
  (GLine.layerComment (layer + 1) :: hdr :: segs.1, segs.2)

/-- The generic G-code generation of `generateGCode` once the drawable
segment set is fixed (source: `src/services/gcodeService.ts` lines
155-224, the part after input extraction): header, temperature block or
plotter note, homing, initial lift, the layer loop, and the end block. -/
def generateSegmentLines (sqrtQ : ℚ → ℚ) (pi : ℚ) (printer : PrinterSettings)
    (model : ModelSettings) (px : String) (segmentsToPrint : List Segment) : List GLine :=
  let actualBedTemp := if model.isPlotterMode then 0 else printer.bedTemperature
  let actualNozzleTemp := if model.isPlotterMode then 0 else printer.temperature
  let targetLayers := if model.isPlotterMode then 1
                      else (⌊model.targetHeight / printer.layerHeight⌋).toNat
  let initialLift := if model.isPlotterMode then printer.zHop + 15 else 15
  let header :=
    [GLine.hdrComment model.isPlotterMode, GLine.settingsComment, GLine.userHeader px] ++
    (if model.isPlotterMode then [GLine.plotterNote]
     else [GLine.m104 actualNozzleTemp, GLine.m140 actualBedTemp,
           GLine.m109 actualNozzleTemp, GLine.m190 actualBedTemp]) ++
    [GLine.g90, GLine.g21, GLine.g28, GLine.g0z initialLift printer.travelSpeed]
  let body := emitFold (layerLoopBody sqrtQ pi printer model segmentsToPrint) 0
    (List.range targetLayers)
  let footer :=
    [GLine.endComment] ++
    (if model.isPlotterMode then [] else [GLine.m104 0, GLine.m140 0]) ++
    [GLine.g91, GLine.g0zNoF 10, GLine.g90, GLine.g0xyNoF 0 printer.bedDepth, GLine.m84]
  header ++ body.1 ++ footer

/-- Least element of a rational list (the source folds `<` comparisons
starting from `Infinity`; on the nonempty lists it is applied to this
equals the fold below). -/
def minListQ (l : List ℚ) : ℚ := l.foldl min (l.headD 0)

/-- Greatest element of a rational list. -/
def maxListQ (l : List ℚ) : ℚ := l.foldl max (l.headD 0)

/-- The scanline Y positions of the infill driver
(source: `for (let y = shapeMinY + spacing; y < shapeMaxY; y += spacing)`).
The iteration count is the number of naturals `k` with
`minY + (k+1)·spacing < maxY`; for `spacing ≤ 0` the source loop would
never terminate, so the embedding returns no scanlines there. -/
def scanYs (minY maxY spacing : ℚ) : List ℚ :=
  if 0 < spacing then
    (List.range (⌈(maxY - minY) / spacing - 1⌉).toNat).map fun k => minY + (k + 1) * spacing
  else []

/-- One infill span of the SVG-standard generator: travel to the span
start, extrude to the span end (source: `src/services/gcodeService.ts`
lines 314-324). -/
def infillSpanBody (pi : ℚ) (printer : PrinterSettings) (y : ℚ) (currentE : ℚ)
    (span : ℚ × ℚ) : List GLine × ℚ :=
  let dist := |span.2 - span.1|
  let extrude := calculateExtrusion pi dist printer.layerHeight printer.nozzleDiameter
    printer.filamentDiameter
  let newE := currentE + extrude * printer.extrusionMultiplier
  ([.g0xy span.1 y printer.travelSpeed,
    .g1xyE span.2 y newE printer.printSpeed], newE)

/-- One perimeter edge of the SVG-standard generator: an extruding move to
the next (transformed) vertex, with the travelled distance measured
between the transformed endpoints (source: lines 268-277). -/
def perimeterMoveBody (sqrtQ : ℚ → ℚ) (pi : ℚ) (printer : PrinterSettings)
    (model : ModelSettings) (minX minY maxX maxY : ℚ) (currentE : ℚ)
    (pq : Point × Point) : List GLine × ℚ :=
  let prevTp := transformPoint printer model minX minY maxX maxY pq.1
  let tp := transformPoint printer model minX minY maxX maxY pq.2
  let dist := sqrtQ ((tp.x - prevTp.x) ^ 2 + (tp.y - prevTp.y) ^ 2)
  let extrude := calculateExtrusion pi dist printer.layerHeight printer.nozzleDiameter
    printer.filamentDiameter
  let newE := currentE + extrude * printer.extrusionMultiplier
  ([.g1xyE tp.x tp.y newE printer.printSpeed], newE)

/-- Per-shape emission of the SVG-standard generator: travel to the first
transformed vertex, walk the closed perimeter, then (if enabled) scanline
infill over the transformed outer loop merged with the transformed hole
loops (source: `src/services/gcodeService.ts` lines 263-327).  Shapes with
fewer than two points are skipped entirely. -/
def shapeLoopBody (sqrtQ : ℚ → ℚ) (pi : ℚ) (printer : PrinterSettings)
    (model : ModelSettings) (minX minY maxX maxY : ℚ) (currentE : ℚ)
    (shape : Shape) : List GLine × ℚ :=
  let points := shape.points
  if points.length < 2 then ([], currentE)
  else
    let tf := transformPoint printer model minX minY maxX maxY
    let start := tf (points.headD ⟨0, 0⟩)
    let peri := emitFold (perimeterMoveBody sqrtQ pi printer model minX minY maxX maxY)
      currentE (loopPairs points)
    let infill :=
      if model.generateInfill then
        let transformedPoints := points.map tf
        let segments := extractSegments transformedPoints ++
          shape.holes.flatMap fun hl => extractSegments (hl.map tf)
        let shapeMinY := minListQ (transformedPoints.map Point.y)
        let shapeMaxY := maxListQ (transformedPoints.map Point.y)
        let spacing := if model.fillDensity < 100 ∧ 0 < model.fillDensity
                       then printer.nozzleDiameter * (100 / model.fillDensity)
                       else printer.nozzleDiameter
        emitFold (fun e y =>
            emitFold (infillSpanBody pi printer y) e
              (pairSpans (getScanlineIntersections y segments)))
          peri.2 (scanYs shapeMinY shapeMaxY spacing)
      else ([], peri.2)
    (GLine.g0xy start.x start.y printer.travelSpeed :: peri.1 ++ infill.1, infill.2)

/-- Per-layer emission of the SVG-standard generator (source: lines
263-267 plus the shape loop). -/
def svgLayerBody (sqrtQ : ℚ → ℚ) (pi : ℚ) (printer : PrinterSettings)
    (model : ModelSettings) (shapes : List Shape) (minX minY maxX maxY : ℚ)
    (currentE : ℚ) (layer : ℕ) : List GLine × ℚ :=
  let z := printer.initialLayerHeight + layer * printer.layerHeight + printer.zOffset
  let body := emitFold (shapeLoopBody sqrtQ pi printer model minX minY maxX maxY)
    currentE shapes
  (GLine.layerCommentZ (layer + 1) z :: GLine.g1z z printer.travelSpeed :: body.1, body.2)

/-- Source: `generateSVGStandardGCode` in `src/services/gcodeService.ts`
(lines 228-331): header and temperature block, homing, initial `Z15`
lift, the layer loop threading `currentE`, and the fixed end block with
the hard-coded `G1 X0 Y200` park move. -/
def generateSVGStandardGCode (sqrtQ : ℚ → ℚ) (pi : ℚ) (shapes : List Shape)
    (printer : PrinterSettings) (model : ModelSettings) (px : String)
    (minX minY maxX maxY : ℚ) : List GLine :=
  let layers := (⌊model.targetHeight / printer.layerHeight⌋).toNat
  let header :=
    [GLine.svgHdrComment, GLine.svgSettingsComment, GLine.userHeader px,
     GLine.m104 printer.temperature, GLine.m140 printer.bedTemperature,
     GLine.g90, GLine.g21, GLine.m109 printer.temperature, GLine.m190 printer.bedTemperature,
     GLine.g28, GLine.g1z 15 printer.travelSpeed]
  let body := emitFold (svgLayerBody sqrtQ pi printer model shapes minX minY maxX maxY) 0
    (List.range layers)
  let footer :=
    [GLine.m104 0, GLine.m140 0, GLine.g91, GLine.g1zNoF 10, GLine.g90,
     GLine.g1xyNoF 0 200, GLine.m84]
  header ++ body.1 ++ footer

/-- A G1 draw move with axis words (the plotter pen-down draw or a
standard-mode extruding draw). -/
def isDrawXY : GLine → Bool
  | .g1xy _ _ _ | .g1xyE _ _ _ _ => true
  | _ => false

/-- The extrusion bookkeeping invariant of an emitted block: entering with
running total `s` and leaving with `t`, the total never decreases, and
every `E` value the block emits lies between them, in nondecreasing
order. -/
def EmitsMono (s : ℚ) (ls : List GLine) (t : ℚ) : Prop :=
  s ≤ t ∧ List.Chain' (· ≤ ·) (streamEs ls) ∧ ∀ e ∈ streamEs ls, s ≤ e ∧ e ≤ t

/-- A decoded RGBA buffer: the flat `data` array of an `ImageData`, four
channel values per pixel, row-major. -/
def RGBAData : Type := List ℕ

/-- Channel read `data[i]` (the source only reads indices that exist). -/
def chan (data : RGBAData) (i : ℕ) : ℕ := (data : List ℕ).getD i 0

/-- The solid/void grid entry of `traceContours`
(source: `src/utils/imageHelper.ts` lines 113-122): the mean
`(R + G + B) / 3` of the pixel at `(x, y)` is below the fixed midpoint
128. -/
def solidAt (data : RGBAData) (w : ℕ) (x y : ℕ) : Bool :=
  let idx := (y * w + x) * 4
  decide ((((chan data idx : ℚ) + chan data (idx + 1) + chan data (idx + 2)) / 3) < 128)

/-- The horizontal boundary edge pushed by `traceContours` at `(x, y)`. -/
def hEdge (x y : ℕ) : Segment := ⟨⟨x, y + 1⟩, ⟨x + 1, y + 1⟩⟩

/-- The vertical boundary edge pushed by `traceContours` at `(x, y)`. -/
def vEdge (x y : ℕ) : Segment := ⟨⟨x + 1, y⟩, ⟨x + 1, y + 1⟩⟩

/-- Source: `traceContours` in `src/utils/imageHelper.ts` lines 110-156:
build the solid grid, emit one horizontal edge per vertical adjacency
where `grid[y][x] != grid[y+1][x]` (outer loop over `y < h-1`, inner over
`x < w`), then one vertical edge per horizontal adjacency where
`grid[y][x] != grid[y][x+1]` (outer loop over `x < w-1`, inner over
`y < h`). -/
def traceContours (data : RGBAData) (w h : ℕ) : List Segment :=
  ((List.range (h - 1)).flatMap fun y => (List.range w).flatMap fun x =>
    if solidAt data w x y ≠ solidAt data w x (y + 1) then [hEdge x y] else []) ++
  ((List.range (w - 1)).flatMap fun x => (List.range h).flatMap fun y =>
    if solidAt data w x y ≠ solidAt data w (x + 1) y then [vEdge x y] else [])

/-- Rec.601 luminance `0.299 R + 0.587 G + 0.114 B`, the formula the spec
calls luminance (used by the hatching pass of the source). -/
def luminanceQ (r g b : ℕ) : ℚ :=
  299 / 1000 * r + 587 / 1000 * g + 114 / 1000 * b

/-- Claim-side pixel classification for contour tracing, written from the
words of the claim: solid iff the luminance is below the midpoint 128. -/
def solidAtLum (data : RGBAData) (w : ℕ) (x y : ℕ) : Bool :=
  let idx := (y * w + x) * 4
  decide (luminanceQ (chan data idx) (chan data (idx + 1)) (chan data (idx + 2)) < 128)

/-- Claim-side contour tracing: the edge emission of `traceContours` run
over the luminance-based grid the claim describes. -/
def traceContoursLum (data : RGBAData) (w h : ℕ) : List Segment :=
  ((List.range (h - 1)).flatMap fun y => (List.range w).flatMap fun x =>
    if solidAtLum data w x y ≠ solidAtLum data w x (y + 1) then [hEdge x y] else []) ++
  ((List.range (w - 1)).flatMap fun x => (List.range h).flatMap fun y =>
    if solidAtLum data w x y ≠ solidAtLum data w (x + 1) y then [vEdge x y] else [])

/-- The rotated sample point of `generateHatchFromImage` for scan offset
`r` and line parameter `t` (source: `src/utils/imageHelper.ts` lines
73-74); `cosv`/`sinv` stand for the `Math.cos`/`Math.sin` values the
source computes from the hatch angle. -/
def hatchSample (cosv sinv : ℚ) (w h : ℕ) (r t : ℚ) : Point :=
  ⟨r * cosv - t * sinv + w / 2, r * sinv + t * cosv + h / 2⟩

/-- The dark test of `generateHatchFromImage` at sample point `(x, y)`
(source: lines 78-88): dark iff inside the buffer bounds and the
luminance of the pixel at `(floor x, floor y)` is strictly below the
threshold; points outside bounds are never dark. -/
def hatchIsDark (data : RGBAData) (threshold : ℚ) (w h : ℕ) (x y : ℚ) : Bool :=
  decide (0 ≤ x ∧ x < w ∧ 0 ≤ y ∧ y < h) &&
    (let idx := (⌊y⌋.toNat * w + ⌊x⌋.toNat) * 4
     decide (299 / 1000 * (chan data idx : ℚ) + 587 / 1000 * (chan data (idx + 1) : ℚ) +
       114 / 1000 * (chan data (idx + 2) : ℚ) < threshold))

/-- One step of the inner `t` loop of `generateHatchFromImage`
(source: lines 90-99): the mutable `segmentStart` plus the emitted
segments.  A dark sample opens a run if none is open; a not-dark sample
closes an open run, pushing a segment from the run start to the current
sample point. -/
def hatchStep (acc : Option Point × List Segment) (s : Point × Bool) :
    Option Point × List Segment :=
  match s.2, acc.1 with
  | true, none => (some s.1, acc.2)
  | true, some p => (some p, acc.2)
  | false, some p => (none, acc.2 ++ [⟨p, s.1⟩])
  | false, none => (none, acc.2)

/-- One full `t` scan: fold the step over the samples; a run still open
when the loop ends is dropped (the source appends nothing after the
loop). -/
def hatchScan (samples : List (Point × Bool)) : List Segment :=
  (samples.foldl hatchStep (none, [])).2

/-- The sample sequence of one `t` scan: `t = -diag + j` for
`j = 0, 1, …` while `t < diag` (step size one pixel). -/
def tSamples (data : RGBAData) (threshold cosv sinv diag : ℚ) (w h : ℕ) (r : ℚ) :
    List (Point × Bool) :=
  (List.range (⌈2 * diag⌉).toNat).map fun j =>
    let t := -diag + j
    let p := hatchSample cosv sinv w h r t
    (p, hatchIsDark data threshold w h p.x p.y)

/-- Number of iterations of the outer `r` loop
(`for (r = -diag; r < diag; r += spacing)`); for `spacing ≤ 0` the source
loop would never terminate, so the embedding performs no scans there. -/
def rCount (diag spacing : ℚ) : ℕ :=
  if 0 < spacing then (⌈2 * diag / spacing⌉).toNat else 0

/-- The scan offset of the `k`-th outer iteration. -/
def rVal (diag spacing : ℚ) (k : ℕ) : ℚ := -diag + k * spacing

/-- Source: `generateHatchFromImage` in `src/utils/imageHelper.ts` lines
28-105.  `cosv`, `sinv` and `diag` stand for the `Math.cos(rad)`,
`Math.sin(rad)` and `Math.sqrt(w² + h²)` values the source computes. -/
def generateHatchFromImage (data : RGBAData) (threshold cosv sinv diag spacing : ℚ)
    (w h : ℕ) : List Segment :=
  (List.range (rCount diag spacing)).flatMap fun k =>
    hatchScan (tSamples data threshold cosv sinv diag w h (rVal diag spacing k))

mutual

/-- Spec-side maximal dark runs: skip samples until the first dark one,
which opens a run. -/
def darkRuns : List (Point × Bool) → List Segment
  | [] => []
  | (_, false) :: rest => darkRuns rest
  | (p, true) :: rest => darkRunsFrom p rest

/-- A run opened at point `p` continues through dark samples and is closed
by the first not-dark sample, whose point becomes the segment end; a run
still open at the end of the scan produces nothing. -/
def darkRunsFrom (p : Point) : List (Point × Bool) → List Segment
  | [] => []
  | (_, true) :: rest => darkRunsFrom p rest
  | (q, false) :: rest => ⟨p, q⟩ :: darkRuns rest

end

/-- An opaque black RGBA pixel. -/
def blackPx : List ℕ := [0, 0, 0, 255]

/-- An opaque white RGBA pixel. -/
def whitePx : List ℕ := [255, 255, 255, 255]

/-- An opaque pure-green RGBA pixel: mean 85 (solid for the code), Rec.601
luminance 149.685 (not solid for the claim). -/
def greenPx : List ℕ := [0, 255, 0, 255]

/-- A 1-wide, 2-high buffer: green pixel above a white pixel. -/
def greenWhiteData : RGBAData := (greenPx ++ whitePx : List ℕ)

/-- A 3 × 3 buffer, all white except a black centre cell. -/
def singleCellData : RGBAData :=
  (whitePx ++ whitePx ++ whitePx ++ whitePx ++ blackPx ++ whitePx ++
   whitePx ++ whitePx ++ whitePx : List ℕ)

/-- A 3-wide, 4-high buffer whose column `x = 0` is black for
`y ∈ {0, 1}` and white elsewhere. -/
def hatchColumnData : RGBAData :=
  (blackPx ++ whitePx ++ whitePx ++ blackPx ++ whitePx ++ whitePx ++
   whitePx ++ whitePx ++ whitePx ++ whitePx ++ whitePx ++ whitePx : List ℕ)

/-- Count of boolean flips along a path of samples, starting from `prev`.
Helper for the even-crossings parity argument. -/
def boolFlips (prev : Bool) : List Bool → ℕ
  | [] => 0
  | b :: bs => (if prev != b then 1 else 0) + boolFlips b bs

/-- The default printer settings of the application
(source: `src/App.tsx`, `DEFAULT_PRINTER_SETTINGS`). -/
def defaultPrinter : PrinterSettings where
  nozzleDiameter := 2 / 5
  filamentDiameter := 7 / 4
  layerHeight := 1 / 5
  initialLayerHeight := 6 / 25
  printSpeed := 3000
  travelSpeed := 7200
  temperature := 200
  bedTemperature := 60
  retractionDistance := 5
  retractionSpeed := 2400
  extrusionMultiplier := 1
  zOffset := 0
  bedWidth := 220
  bedDepth := 220
  zHop := 2

/-- The default model settings of the application
(source: `src/App.tsx`, `DEFAULT_MODEL_SETTINGS`). -/
def defaultModel : ModelSettings where
  targetHeight := 1
  scale := 1
  fillDensity := 100
  generateInfill := true
  isPlotterMode := true

end SvgSlicer

namespace SvgSlicer

/-- Sanity: `loopPairs` is the pairing `(p[i], p[(i+1) % n])` of the source
loops, element by element. -/
theorem loopPairs_getD {α : Type} (ps : List α) (i : ℕ) (h : i < ps.length) (d : α) :
    (loopPairs ps).getD i (d, d) = (ps.getD i d, ps.getD ((i + 1) % ps.length) d) := by
  have hrot : (ps.rotate 1).length = ps.length := by simp
  have hzip : (loopPairs ps).length = ps.length := by
    simp [loopPairs]
  have hi : i < (loopPairs ps).length := by omega
  have hmod : (i + 1) % ps.length < ps.length := Nat.mod_lt _ (by omega)
  rw [List.getD_eq_getElem _ _ hi, List.getD_eq_getElem _ _ h, List.getD_eq_getElem _ _ hmod]
  show (ps.zip (ps.rotate 1))[i] = _
  have hi2 : i < (ps.rotate 1).length := by omega
  rw [List.getElem_zip]
  refine Prod.ext rfl ?_
  rw [List.getElem_rotate]

theorem pairSpans_length : ∀ xs : List ℚ, (pairSpans xs).length = xs.length / 2
  | [] => rfl
  | [_] => by simp [pairSpans]
  | _ :: _ :: rest => by
    simp only [pairSpans, List.length_cons]
    rw [pairSpans_length rest]
    omega

theorem pairSpans_getD : ∀ (xs : List ℚ) (i : ℕ), 2 * i + 1 < xs.length →
    ∀ d₁ d₂ : ℚ, (pairSpans xs).getD i (d₁, d₂) = (xs.getD (2 * i) d₁, xs.getD (2 * i + 1) d₂)
  | [], i, h => by simp at h
  | [_], i, h => by simp at h
  | a :: b :: rest, 0, _ => by intro d₁ d₂; rfl
  | a :: b :: rest, i + 1, h => by
    intro d₁ d₂
    have h' : 2 * i + 1 < rest.length := by
      simp only [List.length_cons] at h; omega
    have r1 : (a :: b :: rest).getD (2 * (i + 1)) d₁ = rest.getD (2 * i) d₁ := by
      have e : 2 * (i + 1) = 2 * i + 1 + 1 := by omega
      rw [e, List.getD_cons_succ, List.getD_cons_succ]
    have r2 : (a :: b :: rest).getD (2 * (i + 1) + 1) d₂ = rest.getD (2 * i + 1) d₂ := by
      have e : 2 * (i + 1) + 1 = 2 * i + 1 + 1 + 1 := by omega
      rw [e, List.getD_cons_succ, List.getD_cons_succ]
    rw [r1, r2, ← pairSpans_getD rest i h' d₁ d₂]
    simp [pairSpans, List.getD_cons_succ]

/-- C1: for every scanline `Y` and flat segment list,
`getScanlineIntersections` returns (as a multiset) exactly the spec-side
crossings — one `x = x1 + (Y - y1)·(x2 - x1)/(y2 - y1)` per segment whose
Y-range satisfies the half-open rule `minY < Y ≤ maxY` — the returned list
is sorted ascending, and the caller-side pairing takes consecutive entries
`(0,1), (2,3), …` and silently discards an odd leftover entry. -/
theorem scanline_intersections_spec :
    (∀ (y : ℚ) (segments : List Segment),
      (getScanlineIntersections y segments).Perm (specScanlineIntersections y segments)) ∧
    (∀ (y : ℚ) (segments : List Segment),
      (getScanlineIntersections y segments).Sorted (· ≤ ·)) ∧
    (∀ xs : List ℚ, (pairSpans xs).length = xs.length / 2) ∧
    (∀ (xs : List ℚ) (i : ℕ), 2 * i + 1 < xs.length → ∀ d₁ d₂ : ℚ,
      (pairSpans xs).getD i (d₁, d₂) = (xs.getD (2 * i) d₁, xs.getD (2 * i + 1) d₂)) := by
  refine ⟨?_, ?_, pairSpans_length, pairSpans_getD⟩
  · intro y segments
    have hperm := List.perm_insertionSort (· ≤ ·)
      ((segments.filter (scanGuard y)).map (interpX y))
    have heq : (segments.filter (scanGuard y)).map (interpX y) =
        specScanlineIntersections y segments := by
      unfold specScanlineIntersections
      have hf : segments.filter (scanGuard y) = segments.filter fun seg =>
          decide (min seg.p1.y seg.p2.y < y ∧ y ≤ max seg.p1.y seg.p2.y) := by
        apply List.filter_congr
        intro seg _
        simp [scanGuard]
      rw [hf]
      apply List.map_congr_left
      intro seg _
      unfold interpX interpT
      rw [div_mul_eq_mul_div]
    exact heq ▸ hperm
  · intro y segments
    exact List.sorted_insertionSort (· ≤ ·) _

/-- C1 witness: the guarded pairing equation evaluated at a concrete sorted
intersection list of odd length five. -/
theorem scanline_intersections_spec_witness :
    2 * 1 + 1 < ([1, 2, 3, 4, 5] : List ℚ).length ∧
    (pairSpans [1, 2, 3, 4, 5]).getD 1 ((0 : ℚ), (0 : ℚ)) =
      (([1, 2, 3, 4, 5] : List ℚ).getD (2 * 1) 0, ([1, 2, 3, 4, 5] : List ℚ).getD (2 * 1 + 1) 0) :=
  ⟨by decide, scanline_intersections_spec.2.2.2 [1, 2, 3, 4, 5] 1 (by decide) 0 0⟩

theorem boolFlips_append_parity : ∀ (xs : List Bool) (a c : Bool),
    boolFlips a (xs ++ [c]) % 2 = (if a != c then 1 else 0) % 2
  | [], a, c => by simp [boolFlips]
  | x :: xs, a, c => by
    have ih := boolFlips_append_parity xs x c
    simp only [List.cons_append, boolFlips]
    cases a <;> cases x <;> cases c <;> simp_all <;> omega

theorem countP_zip_flips : ∀ (xs : List Bool) (a c : Bool),
    ((a :: xs).zip (xs ++ [c])).countP (fun pq => pq.1 != pq.2) = boolFlips a (xs ++ [c])
  | [], a, c => by
    simp [boolFlips, List.countP_cons]
  | x :: xs, a, c => by
    have ih := countP_zip_flips xs x c
    simp only [List.cons_append, List.append_eq, List.zip_cons_cons, List.countP_cons,
      boolFlips] at ih ⊢
    omega

/-- Around a closed loop of booleans, the number of adjacent flips
(including the wrap-around edge) is even. -/
theorem cyclic_flips_even (bs : List Bool) :
    Even ((bs.zip (bs.rotate 1)).countP (fun pq => pq.1 != pq.2)) := by
  cases bs with
  | nil => simp
  | cons a xs =>
    have hrot : (a :: xs).rotate 1 = xs ++ [a] := by
      simpa using List.rotate_cons_succ xs a 0
    rw [hrot, countP_zip_flips xs a a]
    have hpar := boolFlips_append_parity xs a a
    simp at hpar
    exact Nat.even_iff.2 (by omega)

/-- The scanline guard holds exactly when the segment endpoints lie on
opposite sides of `y` under the half-open test `y ≤ ·`. -/
theorem scanGuard_true_iff (y : ℚ) (s : Segment) :
    scanGuard y s = true ↔ ¬((y ≤ s.p1.y) ↔ (y ≤ s.p2.y)) := by
  unfold scanGuard
  simp only [Bool.and_eq_true, decide_eq_true_eq]
  rcases le_total s.p1.y s.p2.y with h | h
  · rw [min_eq_left h, max_eq_right h]
    constructor
    · rintro ⟨h1, h2⟩ hiff
      exact absurd (hiff.2 h2) (not_le.2 h1)
    · intro hne
      by_cases hy : y ≤ s.p1.y
      · exact absurd (fun _ => le_trans hy h) (fun hc => hne ⟨fun _ => hc trivial, fun _ => hy⟩)
      · refine ⟨not_le.1 hy, ?_⟩
        by_contra hc
        exact hne ⟨fun h1 => absurd h1 hy, fun h2 => absurd h2 hc⟩
  · rw [min_eq_right h, max_eq_left h]
    constructor
    · rintro ⟨h1, h2⟩ hiff
      exact absurd (hiff.1 h2) (not_le.2 h1)
    · intro hne
      by_cases hy : y ≤ s.p2.y
      · exact absurd (fun _ => le_trans hy h) (fun hc => hne ⟨fun _ => hy, fun _ => hc trivial⟩)
      · refine ⟨not_le.1 hy, ?_⟩
        by_contra hc
        exact hne ⟨fun h1 => absurd h1 hc, fun h2 => absurd h2 hy⟩

/-- Pointwise form used to transport the guard count onto the boolean
side-of-scanline list. -/
theorem scanGuard_eq_cross (y : ℚ) (pq : Point × Point) :
    scanGuard y ⟨pq.1, pq.2⟩ =
      ((fun bb : Bool × Bool => bb.1 != bb.2)
        (Prod.map (fun p : Point => decide (y ≤ p.y)) (fun p : Point => decide (y ≤ p.y)) pq)) := by
  rcases pq with ⟨p, q⟩
  rw [Bool.eq_iff_iff]
  rw [scanGuard_true_iff]
  simp [bne_iff_ne, decide_eq_decide]

/-- C2: for a polygon given as the closed loop over its vertex list (no
holes), the scanline crossing count at any `y` strictly between the min
and max vertex Y is even. -/
theorem scanline_even_crossings (ps : List Point) (y : ℚ)
    (hmin : polyMinY ps < y) (hmax : y < polyMaxY ps) :
    Even (getScanlineIntersections y (extractSegments ps)).length := by
  have hlen : (getScanlineIntersections y (extractSegments ps)).length
      = (extractSegments ps).countP (scanGuard y) := by
    unfold getScanlineIntersections
    rw [(List.perm_insertionSort _ _).length_eq, List.length_map,
      ← List.countP_eq_length_filter]
  rw [hlen]
  unfold extractSegments loopPairs
  rw [List.countP_map]
  set bf : Point → Bool := fun p => decide (y ≤ p.y) with hbf
  have hcongr : (ps.zip (ps.rotate 1)).countP
        ((scanGuard y) ∘ fun pq : Point × Point => (⟨pq.1, pq.2⟩ : Segment))
      = (ps.zip (ps.rotate 1)).countP
        ((fun bb : Bool × Bool => bb.1 != bb.2) ∘ Prod.map bf bf) := by
    apply List.countP_congr
    intro pq _
    simp only [Function.comp_apply]
    rw [scanGuard_eq_cross y pq]
  have hz : (ps.map bf).zip ((ps.map bf).rotate 1)
      = (ps.zip (ps.rotate 1)).map (Prod.map bf bf) := by
    rw [← List.map_rotate]
    exact List.zip_map bf bf ps (ps.rotate 1)
  have h2 : ((ps.map bf).zip ((ps.map bf).rotate 1)).countP (fun bb => bb.1 != bb.2)
      = (ps.zip (ps.rotate 1)).countP
          ((fun bb : Bool × Bool => bb.1 != bb.2) ∘ Prod.map bf bf) := by
    rw [hz, List.countP_map]
  rw [hcongr, ← h2]
  exact cyclic_flips_even (ps.map bf)

/-- C2 witness: a concrete right triangle with vertices `(0,0)`, `(4,0)`,
`(0,4)` scanned at `y = 2`. -/
theorem scanline_even_crossings_witness :
    polyMinY [⟨0, 0⟩, ⟨4, 0⟩, ⟨0, 4⟩] < 2 ∧ (2 : ℚ) < polyMaxY [⟨0, 0⟩, ⟨4, 0⟩, ⟨0, 4⟩] ∧
    Even (getScanlineIntersections 2 (extractSegments [⟨0, 0⟩, ⟨4, 0⟩, ⟨0, 4⟩])).length :=
  ⟨of_decide_eq_true (by with_unfolding_all rfl),
   of_decide_eq_true (by with_unfolding_all rfl),
   scanline_even_crossings [⟨0, 0⟩, ⟨4, 0⟩, ⟨0, 4⟩] 2
     (of_decide_eq_true (by with_unfolding_all rfl))
     (of_decide_eq_true (by with_unfolding_all rfl))⟩

/-- C3: `calculateExtrusion` computes
`length · layerHeight · nozzleDiameter / (π · (filamentDiameter/2)²)`, and
at `(10, 0.2, 0.4, 1.75)` the value is within `1e-3` of `0.3332`. -/
theorem calculateExtrusion_formula :
    (∀ length layerHeight nozzleDiameter filamentDiameter : ℝ,
      calculateExtrusionR length layerHeight nozzleDiameter filamentDiameter =
        length * layerHeight * nozzleDiameter / (Real.pi * (filamentDiameter / 2) ^ 2)) ∧
    |calculateExtrusionR 10 (2 / 10) (4 / 10) (7 / 4) - 3332 / 10000| < 1 / 1000 := by
  constructor
  · intro l lh nd fd
    rfl
  · have h1 : (3.141592 : ℝ) < Real.pi := Real.pi_gt_d6
    have h2 : Real.pi < 3.141593 := Real.pi_lt_d6
    unfold calculateExtrusionR
    have hApos : (0 : ℝ) < Real.pi * ((7 / 4 : ℝ) / 2) ^ 2 := by positivity
    have hAlb : (2.405281 : ℝ) < Real.pi * ((7 / 4 : ℝ) / 2) ^ 2 := by nlinarith
    have hAub : Real.pi * ((7 / 4 : ℝ) / 2) ^ 2 < (2.405283 : ℝ) := by nlinarith
    rw [abs_sub_lt_iff]
    constructor
    · have hup : (10 : ℝ) * (2 / 10) * (4 / 10) / (Real.pi * ((7 / 4 : ℝ) / 2) ^ 2)
          < 3342 / 10000 := by
        rw [div_lt_iff hApos]
        nlinarith
      linarith
    · have hlo : (3322 : ℝ) / 10000
          < 10 * (2 / 10) * (4 / 10) / (Real.pi * ((7 / 4 : ℝ) / 2) ^ 2) := by
        rw [lt_div_iff hApos]
        nlinarith
      linarith

/-- C4: with a nonzero scale, the spec-side inverse (undo centering, undo
scale, undo Y-flip) recovers the source point from `transformToBed`, and
recovers the bounds-normalized source point from the SVG-standard
`transformPoint`. -/
theorem transform_roundtrip (printer : PrinterSettings) (model : ModelSettings)
    (x y w h minX minY maxX maxY : ℚ) (p : Point) (hs : model.scale ≠ 0) :
    specBedInverse printer model (transformToBed printer model x y w h) w h = ⟨x, y⟩ ∧
    specBedInverse printer model (transformPoint printer model minX minY maxX maxY p)
        (maxX - minX) (maxY - minY) = ⟨p.x - minX, p.y - minY⟩ := by
  unfold specBedInverse transformToBed transformPoint
  constructor
  · simp only [Point.mk.injEq]
    constructor
    · field_simp
      ring
    · field_simp
      ring
  · simp only [Point.mk.injEq]
    constructor
    · field_simp
      ring
    · field_simp
      ring

/-- C4 witness: the round trip evaluated at the point `(3, 4)` in a
`100 × 80` source with the default (unit-scale) settings. -/
theorem transform_roundtrip_witness :
    defaultModel.scale ≠ 0 ∧
    specBedInverse defaultPrinter defaultModel
      (transformToBed defaultPrinter defaultModel 3 4 100 80) 100 80 = ⟨3, 4⟩ :=
  ⟨of_decide_eq_true (by with_unfolding_all rfl),
   (transform_roundtrip defaultPrinter defaultModel 3 4 100 80 0 0 0 0 ⟨0, 0⟩
     (of_decide_eq_true (by with_unfolding_all rfl))).1⟩

/-- C10: the interpolation denominator `p2.y - p1.y` is nonzero whenever
the scanline guard holds, the guard is false on horizontal segments, and a
horizontal segment alone yields no intersections for any scanline. -/
theorem scanline_division_safe :
    (∀ (y : ℚ) (seg : Segment), scanGuard y seg = true → seg.p2.y - seg.p1.y ≠ 0) ∧
    (∀ (y : ℚ) (seg : Segment), seg.p1.y = seg.p2.y → scanGuard y seg = false) ∧
    (∀ (y : ℚ) (seg : Segment), seg.p1.y = seg.p2.y →
      getScanlineIntersections y [seg] = []) := by
  have hfalse : ∀ (y : ℚ) (seg : Segment), seg.p1.y = seg.p2.y → scanGuard y seg = false := by
    intro y seg h
    have := scanGuard_true_iff y seg
    rw [h] at this
    simp only [iff_self_iff] at this
    by_contra hc
    have ht : scanGuard y seg = true := by
      cases hg : scanGuard y seg
      · exact absurd hg hc
      · rfl
    rw [scanGuard_true_iff, h] at ht
    exact ht Iff.rfl
  refine ⟨?_, hfalse, ?_⟩
  · intro y seg hg hzero
    have heq : seg.p1.y = seg.p2.y := by linarith [sub_eq_zero.1 hzero]
    rw [hfalse y seg heq] at hg
    cases hg
  · intro y seg h
    unfold getScanlineIntersections
    rw [List.filter_cons]
    rw [hfalse y seg h]
    simp

theorem emitFold_state_const {α : Type} (f : ℚ → α → List GLine × ℚ) (e : ℚ)
    (l : List α) (h : ∀ a, (f e a).2 = e) :
    emitFold f e l = (l.flatMap fun a => (f e a).1, e) := by
  induction l with
  | nil => rfl
  | cons a as ih =>
    simp only [emitFold, List.flatMap_cons]
    rw [h a, ih]

/-- Structure of the generic generator in plotter mode: one single layer,
and per segment exactly the four-line cycle. -/
theorem plotter_stream_structure (sqrtQ : ℚ → ℚ) (pi : ℚ) (printer : PrinterSettings)
    (model : ModelSettings) (px : String) (segs : List Segment)
    (hp : model.isPlotterMode = true) :
    generateSegmentLines sqrtQ pi printer model px segs =
      [GLine.hdrComment true, GLine.settingsComment, GLine.userHeader px, GLine.plotterNote,
       GLine.g90, GLine.g21, GLine.g28,
       GLine.g0z (printer.zHop + 15) printer.travelSpeed,
       GLine.layerComment 1,
       GLine.g0z (printer.initialLayerHeight + printer.zOffset + printer.zHop)
         printer.travelSpeed] ++
      segs.flatMap (fun seg =>
        [GLine.g0xy seg.p1.x seg.p1.y printer.travelSpeed,
         GLine.g1z (printer.initialLayerHeight + printer.zOffset) printer.travelSpeed,
         GLine.g1xy seg.p2.x seg.p2.y printer.printSpeed,
         GLine.g0z (printer.initialLayerHeight + printer.zOffset + printer.zHop)
           printer.travelSpeed]) ++
      [GLine.endComment, GLine.g91, GLine.g0zNoF 10, GLine.g90,
       GLine.g0xyNoF 0 printer.bedDepth, GLine.m84] := by
  have hseg : ∀ (z zLift e : ℚ) (seg : Segment),
      segmentLoopBody sqrtQ pi printer model z zLift e seg =
        ([GLine.g0xy seg.p1.x seg.p1.y printer.travelSpeed,
          GLine.g1z z printer.travelSpeed,
          GLine.g1xy seg.p2.x seg.p2.y printer.printSpeed,
          GLine.g0z zLift printer.travelSpeed], e) := by
    intro z zLift e seg
    simp [segmentLoopBody, hp]
  have hr1 : List.range 1 = [0] := rfl
  have hflat : ∀ z zLift : ℚ,
      emitFold (segmentLoopBody sqrtQ pi printer model z zLift) 0 segs =
        (segs.flatMap (fun seg =>
          [GLine.g0xy seg.p1.x seg.p1.y printer.travelSpeed,
           GLine.g1z z printer.travelSpeed,
           GLine.g1xy seg.p2.x seg.p2.y printer.printSpeed,
           GLine.g0z zLift printer.travelSpeed]), 0) := by
    intro z zLift
    rw [emitFold_state_const _ _ _ (fun a => by rw [hseg])]
    simp only [hseg]
  simp only [generateSegmentLines, layerLoopBody, hp, if_true, hr1, emitFold,
    Nat.cast_zero, zero_mul, add_zero]
  rw [hflat]
  simp

/-- C5: in plotter mode the generic generator emits, for every drawable
segment of every (single) layer, exactly the four-line cycle travel to
`p1` at travel speed, lower to the drawing Z at travel speed, draw to `p2`
at print speed, raise to the hop Z at travel speed, and a single segment
`(0,0)` to `(10,0)` under the default settings yields exactly those four
motion instructions for its one layer. -/
theorem plotter_four_instruction_cycle :
    (∀ (sqrtQ : ℚ → ℚ) (pi : ℚ) (printer : PrinterSettings) (model : ModelSettings)
      (px : String) (segs : List Segment), model.isPlotterMode = true →
      generateSegmentLines sqrtQ pi printer model px segs =
        [GLine.hdrComment true, GLine.settingsComment, GLine.userHeader px, GLine.plotterNote,
         GLine.g90, GLine.g21, GLine.g28,
         GLine.g0z (printer.zHop + 15) printer.travelSpeed,
         GLine.layerComment 1,
         GLine.g0z (printer.initialLayerHeight + printer.zOffset + printer.zHop)
           printer.travelSpeed] ++
        segs.flatMap (fun seg =>
          [GLine.g0xy seg.p1.x seg.p1.y printer.travelSpeed,
           GLine.g1z (printer.initialLayerHeight + printer.zOffset) printer.travelSpeed,
           GLine.g1xy seg.p2.x seg.p2.y printer.printSpeed,
           GLine.g0z (printer.initialLayerHeight + printer.zOffset + printer.zHop)
             printer.travelSpeed]) ++
        [GLine.endComment, GLine.g91, GLine.g0zNoF 10, GLine.g90,
         GLine.g0xyNoF 0 printer.bedDepth, GLine.m84]) ∧
    generateSegmentLines (fun _ => 0) 0 defaultPrinter defaultModel ""
        [⟨⟨0, 0⟩, ⟨10, 0⟩⟩] =
      [GLine.hdrComment true, GLine.settingsComment, GLine.userHeader "", GLine.plotterNote,
       GLine.g90, GLine.g21, GLine.g28, GLine.g0z 17 7200, GLine.layerComment 1,
       GLine.g0z (56 / 25) 7200,
       GLine.g0xy 0 0 7200, GLine.g1z (6 / 25) 7200, GLine.g1xy 10 0 3000,
       GLine.g0z (56 / 25) 7200,
       GLine.endComment, GLine.g91, GLine.g0zNoF 10, GLine.g90, GLine.g0xyNoF 0 220,
       GLine.m84] ∧
    (List.filter isMotion
      [GLine.g0xy 0 0 7200, GLine.g1z (6 / 25) 7200, GLine.g1xy 10 0 3000,
       GLine.g0z (56 / 25) 7200]).length = 4 := by
  refine ⟨plotter_stream_structure, ?_, by decide⟩
  rw [plotter_stream_structure (fun _ => 0) 0 defaultPrinter defaultModel ""
    [⟨⟨0, 0⟩, ⟨10, 0⟩⟩] rfl]
  simp only [List.flatMap_cons, List.flatMap_nil]
  norm_num [defaultPrinter]

/-- C5 witness: the plotter-mode structure applied at the default settings
and a concrete segment, the plotter-mode hypothesis discharged by `rfl`. -/
theorem plotter_four_instruction_cycle_witness :
    defaultModel.isPlotterMode = true ∧
    generateSegmentLines (fun _ => 0) 0 defaultPrinter defaultModel "x"
        [⟨⟨1, 2⟩, ⟨3, 4⟩⟩] =
      [GLine.hdrComment true, GLine.settingsComment, GLine.userHeader "x", GLine.plotterNote,
       GLine.g90, GLine.g21, GLine.g28,
       GLine.g0z (defaultPrinter.zHop + 15) defaultPrinter.travelSpeed,
       GLine.layerComment 1,
       GLine.g0z (defaultPrinter.initialLayerHeight + defaultPrinter.zOffset +
         defaultPrinter.zHop) defaultPrinter.travelSpeed] ++
      ([⟨⟨1, 2⟩, ⟨3, 4⟩⟩] : List Segment).flatMap (fun seg =>
        [GLine.g0xy seg.p1.x seg.p1.y defaultPrinter.travelSpeed,
         GLine.g1z (defaultPrinter.initialLayerHeight + defaultPrinter.zOffset)
           defaultPrinter.travelSpeed,
         GLine.g1xy seg.p2.x seg.p2.y defaultPrinter.printSpeed,
         GLine.g0z (defaultPrinter.initialLayerHeight + defaultPrinter.zOffset +
           defaultPrinter.zHop) defaultPrinter.travelSpeed]) ++
      [GLine.endComment, GLine.g91, GLine.g0zNoF 10, GLine.g90,
       GLine.g0xyNoF 0 defaultPrinter.bedDepth, GLine.m84] :=
  ⟨rfl, plotter_four_instruction_cycle.1 (fun _ => 0) 0 defaultPrinter defaultModel "x"
    [⟨⟨1, 2⟩, ⟨3, 4⟩⟩] rfl⟩

theorem emitFold_allB {α : Type} (p : GLine → Bool) (f : ℚ → α → List GLine × ℚ)
    (h : ∀ e a, (f e a).1.all p = true) :
    ∀ (l : List α) (e : ℚ), (emitFold f e l).1.all p = true
  | [], e => rfl
  | a :: as, e => by
    simp only [emitFold, List.all_append, Bool.and_eq_true]
    exact ⟨h e a, emitFold_allB p f h as _⟩

/-- C8 counterexample: for vector input with no drawable geometry
(an empty shape list), the SVG-standard generator still returns an
instruction stream — its first line is the header comment and the stream
is not empty — contradicting a fatal abort before any instruction text. -/
theorem no_geometry_counterexample :
    (generateSVGStandardGCode (fun _ => 0) 1 [] defaultPrinter defaultModel
        "" 0 0 0 0).head? = some GLine.svgHdrComment ∧
    generateSVGStandardGCode (fun _ => 0) 1 [] defaultPrinter defaultModel
        "" 0 0 0 0 ≠ [] := by
  have h1 : (generateSVGStandardGCode (fun _ => 0) 1 [] defaultPrinter defaultModel
      "" 0 0 0 0).head? = some GLine.svgHdrComment := rfl
  refine ⟨h1, ?_⟩
  intro hnil
  rw [hnil] at h1
  cases h1

/-- C8 (amended): for vector input from which no drawable geometry is
extracted, both standard-path generators return a header-only instruction
stream: nonempty, but with no extruding line (no `E` word) and no drawing
`G1 X Y` move. -/
theorem no_geometry_header_only (sqrtQ : ℚ → ℚ) (pi : ℚ) (printer : PrinterSettings)
    (model : ModelSettings) (px : String) (minX minY maxX maxY : ℚ) :
    (generateSVGStandardGCode sqrtQ pi [] printer model px minX minY maxX maxY ≠ [] ∧
     ∀ gl ∈ generateSVGStandardGCode sqrtQ pi [] printer model px minX minY maxX maxY,
       lineE gl = none ∧ isDrawXY gl = false) ∧
    (generateSegmentLines sqrtQ pi printer model px [] ≠ [] ∧
     ∀ gl ∈ generateSegmentLines sqrtQ pi printer model px [],
       lineE gl = none ∧ isDrawXY gl = false) := by
  have hofp : ∀ gl : GLine, ((lineE gl).isNone && !isDrawXY gl) = true →
      lineE gl = none ∧ isDrawXY gl = false := by
    intro gl hgl
    simp only [Bool.and_eq_true, Option.isNone_iff_eq_none, Bool.not_eq_true'] at hgl
    exact hgl
  have hsvg : (generateSVGStandardGCode sqrtQ pi [] printer model px minX minY maxX maxY).all
      (fun gl => (lineE gl).isNone && !isDrawXY gl) = true := by
    simp only [generateSVGStandardGCode, List.all_append, Bool.and_eq_true]
    refine ⟨⟨rfl, ?_⟩, rfl⟩
    apply emitFold_allB
    intro e layer
    simp [svgLayerBody, emitFold, lineE, isDrawXY]
  have hgen : (generateSegmentLines sqrtQ pi printer model px []).all
      (fun gl => (lineE gl).isNone && !isDrawXY gl) = true := by
    simp only [generateSegmentLines, List.all_append, Bool.and_eq_true]
    and_intros <;>
      first
        | rfl
        | (apply emitFold_allB
           intro e layer
           by_cases hp : model.isPlotterMode <;>
             simp [layerLoopBody, emitFold, lineE, isDrawXY, hp])
        | (by_cases hp : model.isPlotterMode <;> simp [hp, lineE, isDrawXY])
  refine ⟨⟨?_, ?_⟩, ?_, ?_⟩
  · simp [generateSVGStandardGCode]
  · intro gl hgl
    exact hofp gl (List.all_eq_true.1 hsvg gl hgl)
  · simp [generateSegmentLines]
  · intro gl hgl
    exact hofp gl (List.all_eq_true.1 hgen gl hgl)

theorem mem_of_mem_getLast?Q {l : List ℚ} {a : ℚ} (h : a ∈ l.getLast?) : a ∈ l := by
  obtain ⟨hne, rfl⟩ := List.mem_getLast?_eq_getLast h
  exact List.getLast_mem hne

theorem streamEs_append (l1 l2 : List GLine) :
    streamEs (l1 ++ l2) = streamEs l1 ++ streamEs l2 := by
  simp [streamEs]

theorem emitsMono_nil (s : ℚ) : EmitsMono s [] s :=
  ⟨le_refl s, by simp [streamEs], by simp [streamEs]⟩

theorem emitsMono_of_noE (s : ℚ) (ls : List GLine) (h : streamEs ls = []) :
    EmitsMono s ls s := by
  refine ⟨le_refl s, ?_, ?_⟩ <;> simp [h]

theorem EmitsMono.append {s m t : ℚ} {l1 l2 : List GLine}
    (h1 : EmitsMono s l1 m) (h2 : EmitsMono m l2 t) : EmitsMono s (l1 ++ l2) t := by
  obtain ⟨hst1, hc1, hb1⟩ := h1
  obtain ⟨hst2, hc2, hb2⟩ := h2
  refine ⟨le_trans hst1 hst2, ?_, ?_⟩
  · rw [streamEs_append]
    apply List.Chain'.append hc1 hc2
    intro x hx y hy
    have hxm : x ≤ m := (hb1 x (mem_of_mem_getLast?Q hx)).2
    have hmy : m ≤ y := (hb2 y (List.mem_of_mem_head? hy)).1
    exact le_trans hxm hmy
  · intro e he
    rw [streamEs_append, List.mem_append] at he
    rcases he with he | he
    · obtain ⟨h1e, h2e⟩ := hb1 e he
      exact ⟨h1e, le_trans h2e hst2⟩
    · obtain ⟨h1e, h2e⟩ := hb2 e he
      exact ⟨le_trans hst1 h1e, h2e⟩

theorem emitsMono_cons_noE {s t : ℚ} (gl : GLine) {ls : List GLine} (h : lineE gl = none)
    (hm : EmitsMono s ls t) : EmitsMono s (gl :: ls) t := by
  obtain ⟨hst, hc, hb⟩ := hm
  have he : streamEs (gl :: ls) = streamEs ls := by
    simp [streamEs, List.filterMap_cons, h]
  exact ⟨hst, he ▸ hc, he ▸ hb⟩

theorem emitsMono_singleE (s e x y f : ℚ) (hse : s ≤ e) :
    EmitsMono s [GLine.g1xyE x y e f] e := by
  refine ⟨hse, ?_, ?_⟩
  · simp [streamEs, lineE]
  · intro e2 he2
    simp only [streamEs, List.filterMap_cons, lineE, List.filterMap_nil,
      List.mem_singleton] at he2
    subst he2
    exact ⟨hse, le_refl e2⟩

theorem emitFold_mono {α : Type} (f : ℚ → α → List GLine × ℚ)
    (hf : ∀ e a, EmitsMono e (f e a).1 (f e a).2) :
    ∀ (l : List α) (e : ℚ), EmitsMono e (emitFold f e l).1 (emitFold f e l).2
  | [], e => emitsMono_nil e
  | a :: as, e => by
    have h1 := hf e a
    have h2 := emitFold_mono f hf as (f e a).2
    simpa [emitFold] using h1.append h2

theorem calculateExtrusion_nonneg (pi dist lh nd fd : ℚ) (hpi : 0 ≤ pi) (hd : 0 ≤ dist)
    (hl : 0 ≤ lh) (hn : 0 ≤ nd) : 0 ≤ calculateExtrusion pi dist lh nd fd := by
  unfold calculateExtrusion
  apply div_nonneg
  · exact mul_nonneg (mul_nonneg hd hl) hn
  · exact mul_nonneg hpi (sq_nonneg _)

theorem segmentLoopBody_mono (sqrtQ : ℚ → ℚ) (pi : ℚ) (printer : PrinterSettings)
    (model : ModelSettings) (z zLift : ℚ) (hsq : ∀ q, 0 ≤ q → 0 ≤ sqrtQ q) (hpi : 0 ≤ pi)
    (hm : 0 ≤ printer.extrusionMultiplier) (hl : 0 ≤ printer.layerHeight)
    (hn : 0 ≤ printer.nozzleDiameter) (e : ℚ) (seg : Segment) :
    EmitsMono e (segmentLoopBody sqrtQ pi printer model z zLift e seg).1
      (segmentLoopBody sqrtQ pi printer model z zLift e seg).2 := by
  unfold segmentLoopBody
  split
  · exact emitsMono_of_noE e _ (by simp [streamEs, lineE])
  · have hd : 0 ≤ sqrtQ ((seg.p2.x - seg.p1.x) ^ 2 + (seg.p2.y - seg.p1.y) ^ 2) :=
      hsq _ (by positivity)
    have hx : 0 ≤ calculateExtrusion pi
        (sqrtQ ((seg.p2.x - seg.p1.x) ^ 2 + (seg.p2.y - seg.p1.y) ^ 2))
        printer.layerHeight printer.nozzleDiameter printer.filamentDiameter *
        printer.extrusionMultiplier :=
      mul_nonneg (calculateExtrusion_nonneg _ _ _ _ _ hpi hd hl hn) hm
    exact emitsMono_cons_noE _ rfl (emitsMono_singleE _ _ _ _ _ (le_add_of_nonneg_right hx))

theorem layerLoopBody_mono (sqrtQ : ℚ → ℚ) (pi : ℚ) (printer : PrinterSettings)
    (model : ModelSettings) (segs : List Segment) (hsq : ∀ q, 0 ≤ q → 0 ≤ sqrtQ q)
    (hpi : 0 ≤ pi) (hm : 0 ≤ printer.extrusionMultiplier) (hl : 0 ≤ printer.layerHeight)
    (hn : 0 ≤ printer.nozzleDiameter) (e : ℚ) (layer : ℕ) :
    EmitsMono e (layerLoopBody sqrtQ pi printer model segs e layer).1
      (layerLoopBody sqrtQ pi printer model segs e layer).2 := by
  unfold layerLoopBody
  refine emitsMono_cons_noE _ rfl (emitsMono_cons_noE _ ?_ ?_)
  · split <;> rfl
  · exact emitFold_mono _ (segmentLoopBody_mono sqrtQ pi printer model _ _ hsq hpi hm hl hn)
      segs e

theorem infillSpanBody_mono (pi : ℚ) (printer : PrinterSettings) (y : ℚ) (hpi : 0 ≤ pi)
    (hm : 0 ≤ printer.extrusionMultiplier) (hl : 0 ≤ printer.layerHeight)
    (hn : 0 ≤ printer.nozzleDiameter) (e : ℚ) (span : ℚ × ℚ) :
    EmitsMono e (infillSpanBody pi printer y e span).1 (infillSpanBody pi printer y e span).2 := by
  unfold infillSpanBody
  have hx : 0 ≤ calculateExtrusion pi |span.2 - span.1| printer.layerHeight
      printer.nozzleDiameter printer.filamentDiameter * printer.extrusionMultiplier :=
    mul_nonneg (calculateExtrusion_nonneg _ _ _ _ _ hpi (abs_nonneg _) hl hn) hm
  exact emitsMono_cons_noE _ rfl (emitsMono_singleE _ _ _ _ _ (le_add_of_nonneg_right hx))

theorem perimeterMoveBody_mono (sqrtQ : ℚ → ℚ) (pi : ℚ) (printer : PrinterSettings)
    (model : ModelSettings) (minX minY maxX maxY : ℚ) (hsq : ∀ q, 0 ≤ q → 0 ≤ sqrtQ q)
    (hpi : 0 ≤ pi) (hm : 0 ≤ printer.extrusionMultiplier) (hl : 0 ≤ printer.layerHeight)
    (hn : 0 ≤ printer.nozzleDiameter) (e : ℚ) (pq : Point × Point) :
    EmitsMono e (perimeterMoveBody sqrtQ pi printer model minX minY maxX maxY e pq).1
      (perimeterMoveBody sqrtQ pi printer model minX minY maxX maxY e pq).2 := by
  unfold perimeterMoveBody
  have hd : 0 ≤ sqrtQ
      (((transformPoint printer model minX minY maxX maxY pq.2).x -
          (transformPoint printer model minX minY maxX maxY pq.1).x) ^ 2 +
       ((transformPoint printer model minX minY maxX maxY pq.2).y -
          (transformPoint printer model minX minY maxX maxY pq.1).y) ^ 2) :=
    hsq _ (by positivity)
  have hx : 0 ≤ calculateExtrusion pi _ printer.layerHeight printer.nozzleDiameter
      printer.filamentDiameter * printer.extrusionMultiplier :=
    mul_nonneg (calculateExtrusion_nonneg _ _ _ _ _ hpi hd hl hn) hm
  exact emitsMono_singleE _ _ _ _ _ (le_add_of_nonneg_right hx)

theorem shapeLoopBody_mono (sqrtQ : ℚ → ℚ) (pi : ℚ) (printer : PrinterSettings)
    (model : ModelSettings) (minX minY maxX maxY : ℚ) (hsq : ∀ q, 0 ≤ q → 0 ≤ sqrtQ q)
    (hpi : 0 ≤ pi) (hm : 0 ≤ printer.extrusionMultiplier) (hl : 0 ≤ printer.layerHeight)
    (hn : 0 ≤ printer.nozzleDiameter) (e : ℚ) (shape : Shape) :
    EmitsMono e (shapeLoopBody sqrtQ pi printer model minX minY maxX maxY e shape).1
      (shapeLoopBody sqrtQ pi printer model minX minY maxX maxY e shape).2 := by
  simp only [shapeLoopBody]
  split
  · exact emitsMono_nil e
  · refine emitsMono_cons_noE _ rfl ?_
    apply EmitsMono.append
    · exact emitFold_mono _
        (perimeterMoveBody_mono sqrtQ pi printer model minX minY maxX maxY hsq hpi hm hl hn)
        (loopPairs shape.points) e
    · split
      · apply emitFold_mono
        intro e2 y
        exact emitFold_mono _ (infillSpanBody_mono pi printer y hpi hm hl hn) _ e2
      · exact emitsMono_nil _

theorem svgLayerBody_mono (sqrtQ : ℚ → ℚ) (pi : ℚ) (printer : PrinterSettings)
    (model : ModelSettings) (shapes : List Shape) (minX minY maxX maxY : ℚ)
    (hsq : ∀ q, 0 ≤ q → 0 ≤ sqrtQ q) (hpi : 0 ≤ pi)
    (hm : 0 ≤ printer.extrusionMultiplier) (hl : 0 ≤ printer.layerHeight)
    (hn : 0 ≤ printer.nozzleDiameter) (e : ℚ) (layer : ℕ) :
    EmitsMono e (svgLayerBody sqrtQ pi printer model shapes minX minY maxX maxY e layer).1
      (svgLayerBody sqrtQ pi printer model shapes minX minY maxX maxY e layer).2 := by
  unfold svgLayerBody
  refine emitsMono_cons_noE _ rfl (emitsMono_cons_noE _ rfl ?_)
  exact emitFold_mono _
    (shapeLoopBody_mono sqrtQ pi printer model minX minY maxX maxY hsq hpi hm hl hn) shapes e

/-- C9: in both standard-extrusion emitters, with nonnegative extrusion
multiplier (and nonnegative physical layer height and nozzle diameter,
with `Math.sqrt` and `Math.PI` nonnegative), `currentE` starts at 0, every
drawn move adds `calculateExtrusion × extrusionMultiplier`, and the `E`
values emitted across the whole stream are nondecreasing and never reset
below an earlier value. -/
theorem extrusion_monotone (sqrtQ : ℚ → ℚ) (pi : ℚ) (printer : PrinterSettings)
    (model : ModelSettings) (px : String) (segs : List Segment) (shapes : List Shape)
    (minX minY maxX maxY : ℚ) (hsq : ∀ q, 0 ≤ q → 0 ≤ sqrtQ q) (hpi : 0 ≤ pi)
    (hm : 0 ≤ printer.extrusionMultiplier) (hl : 0 ≤ printer.layerHeight)
    (hn : 0 ≤ printer.nozzleDiameter) :
    (List.Chain' (· ≤ ·) (streamEs (generateSegmentLines sqrtQ pi printer model px segs)) ∧
     ∀ e ∈ streamEs (generateSegmentLines sqrtQ pi printer model px segs), 0 ≤ e) ∧
    (List.Chain' (· ≤ ·)
        (streamEs (generateSVGStandardGCode sqrtQ pi shapes printer model px
          minX minY maxX maxY)) ∧
     ∀ e ∈ streamEs (generateSVGStandardGCode sqrtQ pi shapes printer model px
          minX minY maxX maxY), 0 ≤ e) := by
  have hbody1 := emitFold_mono _
    (layerLoopBody_mono sqrtQ pi printer model segs hsq hpi hm hl hn)
    (List.range (if model.isPlotterMode then 1
      else (⌊model.targetHeight / printer.layerHeight⌋).toNat)) 0
  have hbody2 := emitFold_mono _
    (svgLayerBody_mono sqrtQ pi printer model shapes minX minY maxX maxY hsq hpi hm hl hn)
    (List.range (⌊model.targetHeight / printer.layerHeight⌋).toNat) 0
  constructor
  · have hs : streamEs (generateSegmentLines sqrtQ pi printer model px segs) =
        streamEs (emitFold (layerLoopBody sqrtQ pi printer model segs) 0
          (List.range (if model.isPlotterMode then 1
            else (⌊model.targetHeight / printer.layerHeight⌋).toNat))).1 := by
      simp only [generateSegmentLines, streamEs_append]
      rw [show streamEs [GLine.hdrComment model.isPlotterMode, GLine.settingsComment,
          GLine.userHeader px] = [] from rfl]
      rw [show streamEs (if model.isPlotterMode then [GLine.plotterNote]
          else [GLine.m104 (if model.isPlotterMode then 0 else printer.temperature),
            GLine.m140 (if model.isPlotterMode then 0 else printer.bedTemperature),
            GLine.m109 (if model.isPlotterMode then 0 else printer.temperature),
            GLine.m190 (if model.isPlotterMode then 0 else printer.bedTemperature)]) = []
        from by split <;> rfl]
      rw [show streamEs (if model.isPlotterMode then ([] : List GLine)
          else [GLine.m104 0, GLine.m140 0]) = [] from by split <;> rfl]
      simp [streamEs, lineE]
    rw [hs]
    obtain ⟨_, hc, hb⟩ := hbody1
    exact ⟨hc, fun e he => (hb e he).1⟩
  · have hs : streamEs (generateSVGStandardGCode sqrtQ pi shapes printer model px
        minX minY maxX maxY) =
        streamEs (emitFold (svgLayerBody sqrtQ pi printer model shapes minX minY maxX maxY) 0
          (List.range (⌊model.targetHeight / printer.layerHeight⌋).toNat)).1 := by
      simp only [generateSVGStandardGCode, streamEs_append]
      simp [streamEs, lineE]
    rw [hs]
    obtain ⟨_, hc, hb⟩ := hbody2
    exact ⟨hc, fun e he => (hb e he).1⟩

/-- C9 witness: the monotonicity applied at the default settings with a
unit square shape, one segment, and concrete stand-ins for `Math.sqrt`
and `Math.PI`, each hypothesis discharged at the instance. -/
theorem extrusion_monotone_witness :
    List.Chain' (· ≤ ·) (streamEs (generateSegmentLines (fun q => q) (355 / 113)
      defaultPrinter { defaultModel with isPlotterMode := false } ""
      [⟨⟨0, 0⟩, ⟨10, 0⟩⟩])) ∧
    List.Chain' (· ≤ ·) (streamEs (generateSVGStandardGCode (fun q => q) (355 / 113)
      [⟨[⟨0, 0⟩, ⟨10, 0⟩, ⟨10, 10⟩, ⟨0, 10⟩], []⟩] defaultPrinter
      { defaultModel with isPlotterMode := false } "" 0 0 10 10)) := by
  have h := extrusion_monotone (fun q => q) (355 / 113) defaultPrinter
    { defaultModel with isPlotterMode := false } "" [⟨⟨0, 0⟩, ⟨10, 0⟩⟩]
    [⟨[⟨0, 0⟩, ⟨10, 0⟩, ⟨10, 10⟩, ⟨0, 10⟩], []⟩] 0 0 10 10
    (fun q hq => hq) (of_decide_eq_true (by with_unfolding_all rfl))
    (of_decide_eq_true (by with_unfolding_all rfl))
    (of_decide_eq_true (by with_unfolding_all rfl))
    (of_decide_eq_true (by with_unfolding_all rfl))
  exact ⟨h.1.1, h.2.1⟩

theorem mem_ite_singleton {α : Type} (a b : α) (c : Prop) [Decidable c] :
    a ∈ (if c then [b] else []) ↔ c ∧ a = b := by
  split <;> simp_all

theorem hEdge_inj {x y x' y' : ℕ} : hEdge x y = hEdge x' y' ↔ x = x' ∧ y = y' := by
  unfold hEdge
  simp only [Segment.mk.injEq, Point.mk.injEq]
  constructor
  · rintro ⟨⟨h1, h2⟩, -⟩
    have hy : (y : ℚ) = y' := by linarith
    exact ⟨by exact_mod_cast h1, by exact_mod_cast hy⟩
  · rintro ⟨rfl, rfl⟩
    simp

theorem vEdge_inj {x y x' y' : ℕ} : vEdge x y = vEdge x' y' ↔ x = x' ∧ y = y' := by
  unfold vEdge
  simp only [Segment.mk.injEq, Point.mk.injEq]
  constructor
  · rintro ⟨⟨h1, h2⟩, -⟩
    have hx : (x : ℚ) = x' := by linarith
    exact ⟨by exact_mod_cast hx, by exact_mod_cast h2⟩
  · rintro ⟨rfl, rfl⟩
    simp

theorem hEdge_ne_vEdge (x y x' y' : ℕ) : hEdge x y ≠ vEdge x' y' := by
  unfold hEdge vEdge
  intro hcl
  simp only [Segment.mk.injEq, Point.mk.injEq] at hcl
  obtain ⟨⟨-, h1⟩, -, h2⟩ := hcl
  rw [h1] at h2
  linarith

theorem traceContours_mem (data : RGBAData) (w h : ℕ) (s : Segment) :
    s ∈ traceContours data w h ↔
      (∃ x y, x < w ∧ y + 1 < h ∧ solidAt data w x y ≠ solidAt data w x (y + 1) ∧
        s = hEdge x y) ∨
      (∃ x y, x + 1 < w ∧ y < h ∧ solidAt data w x y ≠ solidAt data w (x + 1) y ∧
        s = vEdge x y) := by
  unfold traceContours
  simp only [List.mem_append, List.mem_flatMap, List.mem_range, mem_ite_singleton]
  constructor
  · rintro (⟨y, hy, x, hx, hc, rfl⟩ | ⟨x, hx, y, hy, hc, rfl⟩)
    · exact Or.inl ⟨x, y, hx, by omega, hc, rfl⟩
    · exact Or.inr ⟨x, y, by omega, hy, hc, rfl⟩
  · rintro (⟨x, y, hx, hy, hc, rfl⟩ | ⟨x, y, hx, hy, hc, rfl⟩)
    · exact Or.inl ⟨y, by omega, x, hx, hc, rfl⟩
    · exact Or.inr ⟨x, by omega, y, hy, hc, rfl⟩

theorem traceContours_nodup (data : RGBAData) (w h : ℕ) :
    (traceContours data w h).Nodup := by
  unfold traceContours
  apply List.Nodup.append
  · rw [List.nodup_flatMap]
    constructor
    · intro y hy
      rw [List.nodup_flatMap]
      refine ⟨fun x hx => ?_, ?_⟩
      · split <;> simp
      · refine List.Pairwise.imp ?_ (List.pairwise_lt_range w)
        intro x x' hlt a ha ha'
        rw [mem_ite_singleton] at ha ha'
        obtain ⟨-, rfl⟩ := ha
        obtain ⟨-, he⟩ := ha'
        exact absurd (hEdge_inj.1 he.symm).1 (by omega)
    · refine List.Pairwise.imp ?_ (List.pairwise_lt_range (h - 1))
      intro y y' hlt a ha ha'
      simp only [List.mem_flatMap, List.mem_range, mem_ite_singleton] at ha ha'
      obtain ⟨x, -, -, rfl⟩ := ha
      obtain ⟨x', -, -, he⟩ := ha'
      exact absurd (hEdge_inj.1 he.symm).2 (by omega)
  · rw [List.nodup_flatMap]
    constructor
    · intro x hx
      rw [List.nodup_flatMap]
      refine ⟨fun y hy => ?_, ?_⟩
      · split <;> simp
      · refine List.Pairwise.imp ?_ (List.pairwise_lt_range h)
        intro y y' hlt a ha ha'
        rw [mem_ite_singleton] at ha ha'
        obtain ⟨-, rfl⟩ := ha
        obtain ⟨-, he⟩ := ha'
        exact absurd (vEdge_inj.1 he.symm).2 (by omega)
    · refine List.Pairwise.imp ?_ (List.pairwise_lt_range (w - 1))
      intro x x' hlt a ha ha'
      simp only [List.mem_flatMap, List.mem_range, mem_ite_singleton] at ha ha'
      obtain ⟨y, -, -, rfl⟩ := ha
      obtain ⟨y', -, -, he⟩ := ha'
      exact absurd (vEdge_inj.1 he.symm).1 (by omega)
  · intro a ha hv
    simp only [List.mem_flatMap, List.mem_range, mem_ite_singleton] at ha hv
    obtain ⟨y, -, x, -, -, rfl⟩ := ha
    obtain ⟨x', -, y', -, -, he⟩ := hv
    exact hEdge_ne_vEdge x y x' y' he

theorem traceContours_all_solid (data : RGBAData) (w h : ℕ)
    (hall : ∀ x y, x < w → y < h → solidAt data w x y = true) :
    traceContours data w h = [] := by
  rw [List.eq_nil_iff_forall_not_mem]
  intro s hs
  rw [traceContours_mem] at hs
  rcases hs with ⟨x, y, hx, hy, hc, -⟩ | ⟨x, y, hx, hy, hc, -⟩
  · exact hc (by rw [hall x y hx (by omega), hall x (y + 1) hx hy])
  · exact hc (by rw [hall x y (by omega) hy, hall (x + 1) y hx hy])

/-- C6 counterexample: on a 1 × 2 buffer with a pure green pixel above a
white pixel, the code classifies by the mean of the colour channels (green
mean 85 is solid) and emits one boundary edge, while the Rec.601
luminance-based classification the claim describes (green luminance
149.685 is not below 128) emits none. -/
theorem traceContours_luminance_counterexample :
    traceContours greenWhiteData 1 2 = [hEdge 0 0] ∧
    traceContoursLum greenWhiteData 1 2 = [] ∧
    traceContours greenWhiteData 1 2 ≠ traceContoursLum greenWhiteData 1 2 :=
  ⟨of_decide_eq_true (by with_unfolding_all rfl),
   of_decide_eq_true (by with_unfolding_all rfl),
   of_decide_eq_true (by with_unfolding_all rfl)⟩

/-- C6 (amended): contour tracing classifies a pixel as solid iff the mean
`(R+G+B)/3` is below the fixed midpoint 128 (not the Rec.601 luminance),
and emits exactly one unit segment at every vertical adjacency where
`grid[y][x] != grid[y+1][x]` and one at every horizontal adjacency where
`grid[y][x] != grid[y][x+1]`, and no others; an all-solid buffer emits
zero edges, and a single solid interior cell in an otherwise void 3 × 3
buffer emits exactly its 4-edge cell perimeter. -/
theorem traceContours_amended :
    (∀ (data : RGBAData) (w x y : ℕ), solidAt data w x y = true ↔
      ((chan data ((y * w + x) * 4) : ℚ) + chan data ((y * w + x) * 4 + 1) +
        chan data ((y * w + x) * 4 + 2)) / 3 < 128) ∧
    (∀ (data : RGBAData) (w h : ℕ) (s : Segment), s ∈ traceContours data w h ↔
      (∃ x y, x < w ∧ y + 1 < h ∧ solidAt data w x y ≠ solidAt data w x (y + 1) ∧
        s = hEdge x y) ∨
      (∃ x y, x + 1 < w ∧ y < h ∧ solidAt data w x y ≠ solidAt data w (x + 1) y ∧
        s = vEdge x y)) ∧
    (∀ (data : RGBAData) (w h : ℕ), (traceContours data w h).Nodup) ∧
    (∀ (data : RGBAData) (w h : ℕ),
      (∀ x y, x < w → y < h → solidAt data w x y = true) →
      traceContours data w h = []) ∧
    traceContours singleCellData 3 3 = [hEdge 1 0, hEdge 1 1, vEdge 0 1, vEdge 1 1] := by
  refine ⟨?_, traceContours_mem, traceContours_nodup, traceContours_all_solid,
    of_decide_eq_true (by with_unfolding_all rfl)⟩
  intro data w x y
  unfold solidAt
  rw [decide_eq_true_iff]

/-- C6 witness: the all-solid case applied to a 1 × 1 black buffer. -/
theorem traceContours_amended_witness :
    (∀ x y, x < 1 → y < 1 → solidAt blackPx 1 x y = true) ∧
    traceContours blackPx 1 1 = [] := by
  have hall : ∀ x y, x < 1 → y < 1 → solidAt blackPx 1 x y = true := by
    intro x y hx hy
    have hx0 : x = 0 := by omega
    have hy0 : y = 0 := by omega
    subst hx0
    subst hy0
    exact of_decide_eq_true (by with_unfolding_all rfl)
  exact ⟨hall, traceContours_amended.2.2.2.1 blackPx 1 1 hall⟩

mutual

theorem hatchScan_from_none : ∀ (samples : List (Point × Bool)) (acc : List Segment),
    (samples.foldl hatchStep (none, acc)).2 = acc ++ darkRuns samples
  | [], acc => by simp [darkRuns]
  | (q, false) :: rest, acc => by
    have ih := hatchScan_from_none rest acc
    simpa [List.foldl_cons, hatchStep, darkRuns] using ih
  | (q, true) :: rest, acc => by
    have ih := hatchScan_from_some rest q acc
    simpa [List.foldl_cons, hatchStep, darkRuns] using ih

theorem hatchScan_from_some : ∀ (samples : List (Point × Bool)) (p : Point)
      (acc : List Segment),
    (samples.foldl hatchStep (some p, acc)).2 = acc ++ darkRunsFrom p samples
  | [], p, acc => by simp [darkRunsFrom]
  | (q, true) :: rest, p, acc => by
    have ih := hatchScan_from_some rest p acc
    simpa [List.foldl_cons, hatchStep, darkRunsFrom] using ih
  | (q, false) :: rest, p, acc => by
    have ih := hatchScan_from_none rest (acc ++ [⟨p, q⟩])
    simp only [List.foldl_cons, hatchStep, darkRunsFrom]
    rw [ih, List.append_assoc]
    rfl

end

/-- C7 counterexample: a 3 × 4 buffer whose column `x = 0` is black at
`y ∈ {0, 1}` and white elsewhere, hatched at angle 0 (`cos = 1`,
`sin = 0`, `diag = √(3² + 4²) = 5`), spacing `7/2`, threshold 128: the
sole dark run consists of the samples `(0,0)` and `(0,1)`, yet the
emitted segment ends at `(0,2)` — the terminating sample, which is not
dark — not at the last dark sample `(0,1)`. -/
theorem hatch_endpoint_counterexample :
    generateHatchFromImage hatchColumnData 128 1 0 5 (7 / 2) 3 4 =
      [⟨⟨0, 0⟩, ⟨0, 2⟩⟩] ∧
    hatchIsDark hatchColumnData 128 3 4 0 2 = false ∧
    hatchIsDark hatchColumnData 128 3 4 0 0 = true ∧
    hatchIsDark hatchColumnData 128 3 4 0 1 = true :=
  ⟨of_decide_eq_true (by with_unfolding_all rfl),
   of_decide_eq_true (by with_unfolding_all rfl),
   of_decide_eq_true (by with_unfolding_all rfl),
   of_decide_eq_true (by with_unfolding_all rfl)⟩

/-- C7 (amended): a sample point is dark iff it lies inside the buffer
bounds and its luminance `0.299R + 0.587G + 0.114B` is strictly below the
threshold; every scan decomposes into maximal dark runs, and each run that
terminates within the scan becomes exactly one segment from its first dark
sample point to the sample point at which it terminates (the first
not-dark or out-of-bounds sample) — not to its last dark sample; a run
still open when the scan ends is dropped. -/
theorem hatch_runs_spec :
    (∀ (data : RGBAData) (threshold : ℚ) (w h : ℕ) (x y : ℚ),
      hatchIsDark data threshold w h x y = true ↔
        ((0 ≤ x ∧ x < w ∧ 0 ≤ y ∧ y < h) ∧
         299 / 1000 * (chan data ((⌊y⌋.toNat * w + ⌊x⌋.toNat) * 4) : ℚ) +
           587 / 1000 * (chan data ((⌊y⌋.toNat * w + ⌊x⌋.toNat) * 4 + 1) : ℚ) +
           114 / 1000 * (chan data ((⌊y⌋.toNat * w + ⌊x⌋.toNat) * 4 + 2) : ℚ) <
             threshold)) ∧
    (∀ (data : RGBAData) (threshold cosv sinv diag spacing : ℚ) (w h : ℕ),
      generateHatchFromImage data threshold cosv sinv diag spacing w h =
        (List.range (rCount diag spacing)).flatMap fun k =>
          darkRuns (tSamples data threshold cosv sinv diag w h (rVal diag spacing k))) := by
  constructor
  · intro data threshold w h x y
    unfold hatchIsDark
    simp only [Bool.and_eq_true, decide_eq_true_eq]
  · intro data threshold cosv sinv diag spacing w h
    unfold generateHatchFromImage
    apply congrArg (List.flatMap (List.range (rCount diag spacing)))
    funext k
    show hatchScan _ = _
    unfold hatchScan
    simpa using hatchScan_from_none
      (tSamples data threshold cosv sinv diag w h (rVal diag spacing k)) []

/-- C10 witness: a vertical segment passing the guard at `y = 2` has a
nonzero denominator, and the horizontal segment `(0,0)–(5,0)` yields no
intersections at `y = 0` (its own height). -/
theorem scanline_division_safe_witness :
    scanGuard 2 ⟨⟨0, 0⟩, ⟨0, 4⟩⟩ = true ∧
    ((⟨⟨0, 0⟩, ⟨0, 4⟩⟩ : Segment).p2.y - (⟨⟨0, 0⟩, ⟨0, 4⟩⟩ : Segment).p1.y ≠ 0) ∧
    (⟨⟨0, 0⟩, ⟨5, 0⟩⟩ : Segment).p1.y = (⟨⟨0, 0⟩, ⟨5, 0⟩⟩ : Segment).p2.y ∧
    getScanlineIntersections 0 [⟨⟨0, 0⟩, ⟨5, 0⟩⟩] = [] :=
  ⟨of_decide_eq_true (by with_unfolding_all rfl),
   scanline_division_safe.1 2 ⟨⟨0, 0⟩, ⟨0, 4⟩⟩ (of_decide_eq_true (by with_unfolding_all rfl)),
   rfl,
   scanline_division_safe.2.2 0 ⟨⟨0, 0⟩, ⟨5, 0⟩⟩ rfl⟩

end SvgSlicer
